import Mathlib

/-!
Verification of the VRAM resource server's `ResourceManager`
(`server/resource_manager.py`).

The manager is a state machine over three string-keyed mappings:
the resource-record metadata (`self.metadata["resources"]`), the version
counters (`self.metadata["versions"]`), and the on-disk payload files
(`{resource_id}.bin` in the resources directory).  Each public method is
embedded as a pure function on that state; the wall clock
(`datetime.now().isoformat()`) is passed in as a `now : Nat` parameter
(ISO timestamps produced by one process compare lexicographically in
chronological order, so a `Nat` timestamp is order-faithful), and the
possibility of an I/O exception while writing a payload file is passed
in as an explicit `writeOk` flag.

Bytes are modelled as `Nat` and byte strings as `List Nat`.
-/

/-! ### Python-dict association lists

Python dicts keep insertion order: assigning to an existing key updates
it in place, assigning a fresh key appends, `del` removes the key.
These operations mirror that on association lists. -/

def dictLookup {α : Type} (k : String) : List (String × α) → Option α
  | [] => none
  | p :: rest => if p.1 = k then some p.2 else dictLookup k rest

def dictInsert {α : Type} (k : String) (v : α) : List (String × α) → List (String × α)
  | [] => [(k, v)]
  | p :: rest => if p.1 = k then (k, v) :: rest else p :: dictInsert k v rest

def dictErase {α : Type} (k : String) : List (String × α) → List (String × α)
  | [] => []
  | p :: rest => if p.1 = k then dictErase k rest else p :: dictErase k rest

theorem dictLookup_insert_self {α : Type} (k : String) (v : α) (m : List (String × α)) :
    dictLookup k (dictInsert k v m) = some v := by
  induction m with
  | nil => simp [dictInsert, dictLookup]
  | cons p rest ih =>
    by_cases h : p.1 = k
    · simp [dictInsert, dictLookup, h]
    · simp [dictInsert, dictLookup, h, ih]

theorem dictLookup_insert_ne {α : Type} {k k' : String} (v : α) (m : List (String × α))
    (h : k' ≠ k) : dictLookup k' (dictInsert k v m) = dictLookup k' m := by
  induction m with
  | nil => simp [dictInsert, dictLookup, Ne.symm h]
  | cons p rest ih =>
    by_cases hp : p.1 = k
    · simp [dictInsert, dictLookup, hp, Ne.symm h]
    · simp [dictInsert, dictLookup, hp, ih]

theorem dictLookup_erase_self {α : Type} (k : String) (m : List (String × α)) :
    dictLookup k (dictErase k m) = none := by
  induction m with
  | nil => simp [dictErase, dictLookup]
  | cons p rest ih =>
    by_cases h : p.1 = k
    · simp [dictErase, h, ih]
    · simp [dictErase, dictLookup, h, ih]

theorem dictLookup_erase_ne {α : Type} {k k' : String} (m : List (String × α))
    (h : k' ≠ k) : dictLookup k' (dictErase k m) = dictLookup k' m := by
  induction m with
  | nil => simp [dictErase]
  | cons p rest ih =>
    by_cases hp : p.1 = k
    · simp [dictErase, dictLookup, hp, ih, Ne.symm h]
    · simp [dictErase, dictLookup, hp, ih]

/-! ### Content Hasher -/

/-- Modelled from the spec: the Content Hasher.  The source's
`_calculate_hash` delegates to `hashlib.sha256(data).hexdigest()`, which
is the Python standard library, not code of this repository; per spec
§4.1 it is a deterministic, side-effect-free digest of the payload.
A concrete executable digest function stands in for SHA-256. -/
def calculate_hash (data : List Nat) : Nat :=
  data.foldl (fun h b => h * 257 + b + 1) 0

/-! ### Compressor -/

/-- Modelled from the spec: the Compressor.  The source's
`_compress_data` delegates to `gzip.compress`, which is the Python
standard library, not code of this repository; per spec §4.2 `compress`
is the forward half of a lossless round trip.  A run-length code stands
in for gzip: output is a flat list of (count, byte) pairs. -/
def compress_data : List Nat → List Nat
  | [] => []
  | b :: rest =>
    match compress_data rest with
    | n :: c :: tail => if c = b then (n + 1) :: b :: tail else 1 :: b :: n :: c :: tail
    | _ => [1, b]

/-- Modelled from the spec: the Compressor's reverse half.  The source's
`_decompress_data` delegates to `gzip.decompress` (Python standard
library); per spec §4.2 it inverts `compress` and fails (`CorruptPayload`,
a raised exception in the source) on input that is not valid compressed
output — modelled by `Option`. -/
def decompress_data : List Nat → Option (List Nat)
  | [] => some []
  | n :: b :: rest =>
    if n = 0 then none
    else (decompress_data rest).map (fun d => List.replicate n b ++ d)
  | [_] => none

theorem decompress_compress (x : List Nat) :
    decompress_data (compress_data x) = some x := by
  induction x with
  | nil => rfl
  | cons b rest ih =>
    match hc : compress_data rest with
    | [] =>
      rw [hc] at ih
      simp only [decompress_data, Option.some.injEq] at ih
      simp [compress_data, hc, decompress_data, ← ih, List.replicate]
    | [n] =>
      rw [hc] at ih
      simp [decompress_data] at ih
    | n :: c :: tail =>
      rw [hc] at ih
      simp only [decompress_data] at ih
      by_cases hn : n = 0
      · simp [hn] at ih
      · simp only [if_neg hn, Option.map_eq_some'] at ih
        obtain ⟨d, hd, hrest⟩ := ih
        by_cases hcb : c = b
        · subst hcb
          simp only [compress_data, hc, if_pos rfl, decompress_data, Nat.succ_ne_zero,
            if_neg (Nat.succ_ne_zero n), hd, Option.map_some']
          rw [← hrest, List.replicate_succ]
          simp
        · simp only [compress_data, hc, if_neg hcb, decompress_data, one_ne_zero,
            if_neg one_ne_zero, if_neg hn, hd, Option.map_some', Option.map_map]
          simp [← hrest, List.replicate]

/-! ### Data model

`ResourceMeta` mirrors the per-resource dict built in
`store_resource` (lines 78–88 of `resource_manager.py`); the Python key
`"type"` is spelled `rtype`.  Timestamps are `Nat` (see header). -/

structure ResourceMeta where
  rtype : String
  size : Nat
  compressed_size : Nat
  hash : Nat
  compressed : Bool
  priority : Int
  created : Nat
  last_accessed : Nat
  access_count : Nat
deriving DecidableEq, Repr

/-- The manager's state: `self.metadata["resources"]`,
`self.metadata["versions"]`, and the payload files on disk
(`files` maps a resource id to the bytes of `{id}.bin`). -/
structure ManagerState where
  resources : List (String × ResourceMeta)
  versions : List (String × Nat)
  files : List (String × List Nat)
deriving DecidableEq, Repr

/-- The dict returned by `store_resource`: `{"status": "success", ...}`
or `{"status": "error", "message": ...}`. -/
inductive StoreResult where
  | success (resource_id : String) (size : Nat) (compressed_size : Nat)
      (version : Nat) (hash : Nat)
  | error
deriving DecidableEq, Repr

/-- The `"version"` field of a successful store result. -/
def StoreResult.versionOf : StoreResult → Option Nat
  | .success _ _ _ v _ => some v
  | .error => none

/-! ### Operations -/

/-- `ResourceManager.store_resource` (lines 58–108).  `now` stands for
`datetime.now()`; `writeOk` says whether the payload-file write
(lines 74–75) succeeds.  When it fails (an I/O exception), the
`except` branch returns an error dict and the metadata dicts are
untouched; the payload file on disk may by then have been truncated
and partially written, which `failFile` captures (`none` = file
untouched, `some p` = file now holds `p`). -/
def store_resource (s : ManagerState) (resource_id : String) (data : List Nat)
    (resource_type : String) (priority : Int) (compress : Bool)
    (now : Nat) (writeOk : Bool) (failFile : Option (List Nat)) :
    StoreResult × ManagerState :=
  let data_hash := calculate_hash data
  let storage_data := if compress then compress_data data else data
  if writeOk then
    let meta : ResourceMeta :=
      { rtype := resource_type
        size := data.length
        compressed_size := storage_data.length
        hash := data_hash
        compressed := compress
        priority := priority
        created := now
        last_accessed := now
        access_count := 0 }
    let newVersion := (dictLookup resource_id s.versions).getD 0 + 1
    (StoreResult.success resource_id data.length storage_data.length newVersion data_hash,
      { resources := dictInsert resource_id meta s.resources
        versions := dictInsert resource_id newVersion s.versions
        files := dictInsert resource_id storage_data s.files })
  else
    (StoreResult.error,
      { s with files := match failFile with
                        | none => s.files
                        | some p => dictInsert resource_id p s.files })

/-- `ResourceManager.get_resource` (lines 110–150).  Returns `none` for
an unknown id, a missing payload file, a decompression failure (the
raised exception is caught by the method's `except` branch), or a hash
mismatch; on success it bumps the access statistics in place and
returns the data with the updated record. -/
def get_resource (s : ManagerState) (resource_id : String) (now : Nat) :
    Option (List Nat × ResourceMeta) × ManagerState :=
  match dictLookup resource_id s.resources with
  | none => (none, s)
  | some resource_meta =>
    match dictLookup resource_id s.files with
    | none => (none, s)
    | some storage_data =>
      match if resource_meta.compressed then decompress_data storage_data
            else some storage_data with
      | none => (none, s)
      | some data =>
        if calculate_hash data ≠ resource_meta.hash then (none, s)
        else
          let meta' := { resource_meta with
                           last_accessed := now
                           access_count := resource_meta.access_count + 1 }
          (some (data, meta'),
            { s with resources := dictInsert resource_id meta' s.resources })

/-- One summary row built by `list_resources` (lines 158–167). -/
structure ResourceSummary where
  id : String
  rtype : String
  size : Nat
  compressed_size : Nat
  priority : Int
  version : Nat
  last_accessed : Nat
  access_count : Nat
deriving DecidableEq, Repr

/-- The summary dict for one `(resource_id, meta)` entry; note the
source defaults the version to 1 (`.get(resource_id, 1)`). -/
def summaryOf (versions : List (String × Nat)) (p : String × ResourceMeta) :
    ResourceSummary :=
  { id := p.1
    rtype := p.2.rtype
    size := p.2.size
    compressed_size := p.2.compressed_size
    priority := p.2.priority
    version := (dictLookup p.1 versions).getD 1
    last_accessed := p.2.last_accessed
    access_count := p.2.access_count }

/-- The type filter of `list_resources`: `resource_type is None or
meta["type"] == resource_type`. -/
def matchesType (resource_type : Option String) (m : ResourceMeta) : Bool :=
  match resource_type with
  | none => true
  | some t => m.rtype = t

/-- Descending `last_accessed` order used by `list_resources`
(`sorted(..., key=lambda x: x["last_accessed"], reverse=True)`). -/
def descLA (a b : ResourceSummary) : Prop :=
  b.last_accessed ≤ a.last_accessed

instance : DecidableRel descLA := fun a b =>
  inferInstanceAs (Decidable (b.last_accessed ≤ a.last_accessed))

instance : IsTotal ResourceSummary descLA := by
  refine ⟨fun a b => ?_⟩
  unfold descLA
  exact Nat.le_total b.last_accessed a.last_accessed

instance : IsTrans ResourceSummary descLA :=
  ⟨fun _ _ _ hab hbc => Nat.le_trans hbc hab⟩

/-- `ResourceManager.list_resources` (lines 152–169): build one summary
per record passing the type filter, in dict order, then sort descending
by `last_accessed`.  Python's stable `sorted(..., reverse=True)` is
insertion sort under `descLA`. -/
def list_resources (s : ManagerState) (resource_type : Option String) :
    List ResourceSummary :=
  List.insertionSort descLA
    ((s.resources.filter (fun p => matchesType resource_type p.2)).map
      (summaryOf s.versions))

/-- `ResourceManager.check_version` (lines 171–173). -/
def check_version (s : ManagerState) (resource_id : String) : Option Nat :=
  dictLookup resource_id s.versions

/-- `ResourceManager.delete_resource` (lines 175–197): `False` and no
change for an unknown id; otherwise remove the payload file, the
record, and the version counter, and return `True`. -/
def delete_resource (s : ManagerState) (resource_id : String) :
    Bool × ManagerState :=
  match dictLookup resource_id s.resources with
  | none => (false, s)
  | some _ =>
    (true,
      { resources := dictErase resource_id s.resources
        versions := dictErase resource_id s.versions
        files := dictErase resource_id s.files })

/-- The dict returned by `get_storage_stats`; the two float fields are
modelled as exact rationals. -/
structure StorageStats where
  resource_count : Nat
  total_size : Nat
  total_compressed_size : Nat
  compression_ratio : ℚ
  disk_usage_mb : ℚ
deriving DecidableEq, Repr

/-- `ResourceManager.get_storage_stats` (lines 199–215): a pure read of
the metadata (it mutates nothing and scans no payload files). -/
def get_storage_stats (s : ManagerState) : StorageStats :=
  let total_size := s.resources.foldl (fun acc p => acc + p.2.size) 0
  let total_compressed := s.resources.foldl (fun acc p => acc + p.2.compressed_size) 0
  { resource_count := s.resources.length
    total_size := total_size
    total_compressed_size := total_compressed
    compression_ratio := if total_size > 0 then (total_compressed : ℚ) / (total_size : ℚ) else 0
    disk_usage_mb := (total_compressed : ℚ) / (1024 * 1024) }

/-! ### Helper lemmas -/

theorem foldl_add_eq_sum {β : Type} (f : β → Nat) (l : List β) (n : Nat) :
    l.foldl (fun acc p => acc + f p) n = n + (l.map f).sum := by
  induction l generalizing n with
  | nil => simp
  | cons a t ih => simp [ih, Nat.add_assoc]

/-- The records-and-versions sync invariant of spec §3: for any id, a
resource record is present exactly when a version counter is. -/
def InSync (s : ManagerState) : Prop :=
  ∀ id : String, (dictLookup id s.resources).isSome = (dictLookup id s.versions).isSome

/-! ### Claims -/

/-- Claim C4: for every byte sequence `x`, including the empty sequence,
`decompress (compress x) = x` — the Compressor is a lossless round trip
(spec §4.2). -/
theorem c4_compressor_roundtrip (x : List Nat) :
    decompress_data (compress_data x) = some x :=
  decompress_compress x

/-- Claim C5: if an I/O failure occurs while writing the payload file
during `store_resource`, the operation returns a failure result (the
`except` branch returns an error dict, it does not re-raise), and the
resource records and version counters — all of the metadata — are
exactly as before, whatever happened to the partially written payload
file (`ff` ranges over every possible on-disk outcome of the failed
write). -/
theorem c5_store_failure_no_op (s : ManagerState) (rid rt : String) (data : List Nat)
    (priority : Int) (compress : Bool) (now : Nat) (ff : Option (List Nat)) :
    (store_resource s rid data rt priority compress now false ff).1 = StoreResult.error ∧
    (store_resource s rid data rt priority compress now false ff).2.resources = s.resources ∧
    (store_resource s rid data rt priority compress now false ff).2.versions = s.versions := by
  refine ⟨rfl, ?_, ?_⟩ <;> simp [store_resource]

/-- Claim C8: `get_storage_stats` reports the number of live records,
the sum of their original sizes `S`, the sum of their compressed sizes
`C`, and the ratio `C / S` (`0` when `S = 0`).  It is a pure read: its
embedding consumes the state and produces only a `StorageStats` value. -/
theorem c8_stats (s : ManagerState) :
    (get_storage_stats s).resource_count = s.resources.length ∧
    (get_storage_stats s).total_size = (s.resources.map (fun p => p.2.size)).sum ∧
    (get_storage_stats s).total_compressed_size
        = (s.resources.map (fun p => p.2.compressed_size)).sum ∧
    (get_storage_stats s).compression_ratio =
      (if (s.resources.map (fun p => p.2.size)).sum = 0 then 0
       else ((s.resources.map (fun p => p.2.compressed_size)).sum : ℚ)
              / ((s.resources.map (fun p => p.2.size)).sum : ℚ)) := by
  refine ⟨rfl, ?_, ?_, ?_⟩
  · simpa using foldl_add_eq_sum (fun p => p.2.size) s.resources 0
  · simpa using foldl_add_eq_sum (fun p => p.2.compressed_size) s.resources 0
  · simp only [get_storage_stats, foldl_add_eq_sum, Nat.zero_add]
    by_cases hS : (s.resources.map (fun p => p.2.size)).sum = 0
    · simp [hS]
    · rw [if_pos (Nat.pos_of_ne_zero hS), if_neg hS]
      simp [Nat.cast_list_sum, List.map_map, Function.comp_def]

/-- Claim C2: a successful store of a fresh id (no version counter yet)
yields version 1; a successful store over an existing counter `v`
yields `v + 1`; and after any successful store, `check_version`
returns exactly the version the store reported. -/
theorem c2_versioning (s : ManagerState) (rid rt : String) (data : List Nat)
    (priority : Int) (compress : Bool) (now : Nat) (ff : Option (List Nat)) :
    (check_version s rid = none →
        (store_resource s rid data rt priority compress now true ff).1.versionOf = some 1) ∧
    (∀ v, check_version s rid = some v →
        (store_resource s rid data rt priority compress now true ff).1.versionOf
          = some (v + 1)) ∧
    check_version (store_resource s rid data rt priority compress now true ff).2 rid
        = (store_resource s rid data rt priority compress now true ff).1.versionOf := by
  refine ⟨?_, ?_, ?_⟩
  · intro h
    simp [store_resource, StoreResult.versionOf, check_version] at h ⊢
    simp [h]
  · intro v h
    simp [store_resource, StoreResult.versionOf, check_version] at h ⊢
    simp [h]
  · simp [store_resource, StoreResult.versionOf, check_version, dictLookup_insert_self]

/-- Witness for C2 at a concrete input: storing `[1]` under the fresh
id `"a"` in the empty state yields version 1. -/
theorem c2_versioning_witness :
    (store_resource ⟨[], [], []⟩ "a" [1] "t" 1 true 0 true none).1.versionOf = some 1 :=
  (c2_versioning ⟨[], [], []⟩ "a" "t" [1] 1 true 0 none).1 rfl

/-- Claim C7: `delete_resource` returns whether the id existed: an
unknown id gives `false` and the state is unchanged; a known id gives
`true` and removes both the record and the version counter, so an
immediately repeated delete gives `false`. -/
theorem c7_delete (s : ManagerState) (rid : String) :
    (dictLookup rid s.resources = none → delete_resource s rid = (false, s)) ∧
    (∀ m : ResourceMeta, dictLookup rid s.resources = some m →
      (delete_resource s rid).1 = true ∧
      dictLookup rid (delete_resource s rid).2.resources = none ∧
      dictLookup rid (delete_resource s rid).2.versions = none ∧
      (delete_resource (delete_resource s rid).2 rid).1 = false) := by
  constructor
  · intro h
    simp [delete_resource, h]
  · intro m h
    refine ⟨?_, ?_, ?_, ?_⟩ <;>
      simp [delete_resource, h, dictLookup_erase_self]

/-- Witness for C7 at a concrete input: deleting `"a"` from a one-entry
state succeeds, removes record and counter, and a second delete of
`"a"` returns `false`. -/
theorem c7_delete_witness :
    (delete_resource ⟨[("a", ⟨"t", 1, 1, 0, false, 1, 0, 0, 0⟩)], [("a", 1)], [("a", [5])]⟩
        "a").1 = true ∧
    dictLookup "a" (delete_resource
        ⟨[("a", ⟨"t", 1, 1, 0, false, 1, 0, 0, 0⟩)], [("a", 1)], [("a", [5])]⟩
        "a").2.resources = none ∧
    dictLookup "a" (delete_resource
        ⟨[("a", ⟨"t", 1, 1, 0, false, 1, 0, 0, 0⟩)], [("a", 1)], [("a", [5])]⟩
        "a").2.versions = none ∧
    (delete_resource (delete_resource
        ⟨[("a", ⟨"t", 1, 1, 0, false, 1, 0, 0, 0⟩)], [("a", 1)], [("a", [5])]⟩
        "a").2 "a").1 = false :=
  (c7_delete ⟨[("a", ⟨"t", 1, 1, 0, false, 1, 0, 0, 0⟩)], [("a", 1)], [("a", [5])]⟩
      "a").2 ⟨"t", 1, 1, 0, false, 1, 0, 0, 0⟩ (by decide)

/-- Claim C1: for every id and every payload (including the empty one),
after a successful `store_resource` a subsequent `get_resource` returns
bytes equal to the payload together with a record whose stored `hash`
equals the hash of the payload — whether or not compression was
requested. -/
theorem c1_store_get_roundtrip (s : ManagerState) (rid rt : String) (data : List Nat)
    (priority : Int) (compress : Bool) (now now' : Nat) :
    ∃ meta : ResourceMeta,
      (get_resource (store_resource s rid data rt priority compress now true none).2
          rid now').1 = some (data, meta) ∧
      meta.hash = calculate_hash data := by
  by_cases hc : compress
  · subst hc
    refine ⟨{ rtype := rt, size := data.length,
              compressed_size := (compress_data data).length,
              hash := calculate_hash data, compressed := true, priority := priority,
              created := now, last_accessed := now', access_count := 1 }, ?_, rfl⟩
    simp [store_resource, get_resource, dictLookup_insert_self, decompress_compress]
  · simp only [Bool.not_eq_true] at hc
    subst hc
    refine ⟨{ rtype := rt, size := data.length, compressed_size := data.length,
              hash := calculate_hash data, compressed := false, priority := priority,
              created := now, last_accessed := now', access_count := 1 }, ?_, rfl⟩
    simp [store_resource, get_resource, dictLookup_insert_self]

/-- The access-statistics update a successful `get_resource` applies to
the record (lines 140–141): only `last_accessed` and `access_count`
change. -/
def bumpAccess (meta : ResourceMeta) (now : Nat) : ResourceMeta :=
  { meta with last_accessed := now, access_count := meta.access_count + 1 }

/-- Case analysis of `get_resource`: it either fails, returning `none`
and leaving the state untouched, or succeeds, returning the data with
the access-bumped record and writing exactly that record back. -/
theorem get_resource_cases (s : ManagerState) (rid : String) (now : Nat) :
    ((get_resource s rid now).1 = none ∧ (get_resource s rid now).2 = s) ∨
    (∃ meta d, dictLookup rid s.resources = some meta ∧
      (get_resource s rid now).1 = some (d, bumpAccess meta now) ∧
      (get_resource s rid now).2.resources
        = dictInsert rid (bumpAccess meta now) s.resources ∧
      (get_resource s rid now).2.versions = s.versions ∧
      (get_resource s rid now).2.files = s.files) := by
  unfold get_resource
  split
  · exact Or.inl ⟨rfl, rfl⟩
  · rename_i meta hr
    split
    · exact Or.inl ⟨rfl, rfl⟩
    · rename_i storage hf
      split
      · exact Or.inl ⟨rfl, rfl⟩
      · rename_i d hd
        split
        · exact Or.inl ⟨rfl, rfl⟩
        · exact Or.inr ⟨meta, d, hr, rfl, rfl, rfl, rfl⟩

/-- Claim C9: starting from any state where, for every id, a resource
record is present exactly when a version counter is, each operation
preserves that invariant.  `store_resource` (success and failure),
`get_resource`, and `delete_resource` are the state-changing
operations; `list_resources`, `check_version`, and `get_storage_stats`
are embedded as state-free reads, so they preserve every state
property by construction. -/
theorem c9_sync_invariant (s : ManagerState) (h : InSync s) (rid rt : String)
    (data : List Nat) (priority : Int) (compress : Bool) (now : Nat)
    (writeOk : Bool) (ff : Option (List Nat)) :
    InSync (store_resource s rid data rt priority compress now writeOk ff).2 ∧
    InSync (get_resource s rid now).2 ∧
    InSync (delete_resource s rid).2 := by
  refine ⟨?_, ?_, ?_⟩
  · intro id
    cases writeOk with
    | false => cases ff <;> simpa [store_resource] using h id
    | true =>
      by_cases hid : id = rid
      · subst hid
        simp [store_resource, dictLookup_insert_self]
      · simp [store_resource, dictLookup_insert_ne _ _ hid, h id]
  · intro id
    rcases get_resource_cases s rid now with ⟨-, h2⟩ | ⟨meta, d, hm, -, hres, hver, -⟩
    · rw [h2]
      exact h id
    · rw [hres, hver]
      by_cases hid : id = rid
      · subst hid
        rw [dictLookup_insert_self, ← h id, hm]
        rfl
      · rw [dictLookup_insert_ne _ _ hid]
        exact h id
  · intro id
    cases hr : dictLookup rid s.resources with
    | none => simpa [delete_resource, hr] using h id
    | some m =>
      by_cases hid : id = rid
      · subst hid
        simp [delete_resource, hr, dictLookup_erase_self]
      · simp [delete_resource, hr, dictLookup_erase_ne _ hid, h id]

/-- Witness for C9 at a concrete input: the empty state is in sync, and
so are the states after a store, a get, and a delete on it. -/
theorem c9_sync_invariant_witness :
    InSync (store_resource ⟨[], [], []⟩ "a" [1] "t" 1 true 0 true none).2 ∧
    InSync (get_resource ⟨[], [], []⟩ "a" 0).2 ∧
    InSync (delete_resource ⟨[], [], []⟩ "a").2 :=
  c9_sync_invariant ⟨[], [], []⟩ (fun _ => rfl) "a" "t" [1] 1 true 0 true none

/-- Claim C10: a successful `get_resource` for `rid` changes only the
`last_accessed` and `access_count` fields of `rid`'s record
(`bumpAccess` fixes every other field of the record), while every
other id's record, every version counter, and every payload file are
unchanged. -/
theorem c10_get_frame (s : ManagerState) (rid : String) (now : Nat)
    (res : List Nat × ResourceMeta) (h : (get_resource s rid now).1 = some res) :
    (get_resource s rid now).2.versions = s.versions ∧
    (get_resource s rid now).2.files = s.files ∧
    (∀ id, id ≠ rid →
        dictLookup id (get_resource s rid now).2.resources
          = dictLookup id s.resources) ∧
    (∃ old : ResourceMeta, dictLookup rid s.resources = some old ∧
        dictLookup rid (get_resource s rid now).2.resources
          = some (bumpAccess old now)) := by
  rcases get_resource_cases s rid now with ⟨h1, -⟩ | ⟨meta, d, hm, -, hres, hver, hfil⟩
  · rw [h1] at h
    exact absurd h (by simp)
  · refine ⟨hver, hfil, ?_, meta, hm, ?_⟩
    · intro id hid
      rw [hres]
      exact dictLookup_insert_ne _ _ hid
    · rw [hres]
      exact dictLookup_insert_self _ _ _

/-- Witness for C10 at a concrete input: a successful get of `"a"` from
a one-entry state at time 9. -/
theorem c10_get_frame_witness :
    (get_resource ⟨[("a", ⟨"t", 1, 1, 6, false, 1, 0, 0, 0⟩)], [("a", 1)],
        [("a", [5])]⟩ "a" 9).2.versions = [("a", 1)] ∧
    (get_resource ⟨[("a", ⟨"t", 1, 1, 6, false, 1, 0, 0, 0⟩)], [("a", 1)],
        [("a", [5])]⟩ "a" 9).2.files = [("a", [5])] ∧
    (∀ id, id ≠ "a" →
        dictLookup id (get_resource ⟨[("a", ⟨"t", 1, 1, 6, false, 1, 0, 0, 0⟩)],
            [("a", 1)], [("a", [5])]⟩ "a" 9).2.resources
          = dictLookup id [("a", ⟨"t", 1, 1, 6, false, 1, 0, 0, 0⟩)]) ∧
    (∃ old : ResourceMeta,
        dictLookup "a" [("a", (⟨"t", 1, 1, 6, false, 1, 0, 0, 0⟩ : ResourceMeta))]
          = some old ∧
        dictLookup "a" (get_resource ⟨[("a", ⟨"t", 1, 1, 6, false, 1, 0, 0, 0⟩)],
            [("a", 1)], [("a", [5])]⟩ "a" 9).2.resources
          = some (bumpAccess old 9)) :=
  c10_get_frame ⟨[("a", ⟨"t", 1, 1, 6, false, 1, 0, 0, 0⟩)], [("a", 1)], [("a", [5])]⟩
    "a" 9 ([5], ⟨"t", 1, 1, 6, false, 1, 0, 9, 1⟩) (by decide)

/-- Claim C6: for every optional type filter, `list_resources` returns
one summary per matching resource (a permutation of the filtered
summaries, built as the source builds them), ordered descending by
`last_accessed`; in particular, three resources last accessed at times
T1 < T2 < T3 come back in the order T3, T2, T1. -/
theorem c6_list_order (s : ManagerState) (tf : Option String)
    (i1 i2 i3 : String) (m1 m2 m3 : ResourceMeta)
    (vs : List (String × Nat)) (fs : List (String × List Nat))
    (h12 : m1.last_accessed < m2.last_accessed)
    (h23 : m2.last_accessed < m3.last_accessed) :
    (list_resources s tf).Sorted descLA ∧
    (list_resources s tf).Perm
      ((s.resources.filter (fun p => matchesType tf p.2)).map (summaryOf s.versions)) ∧
    list_resources ⟨[(i1, m1), (i2, m2), (i3, m3)], vs, fs⟩ none
      = [summaryOf vs (i3, m3), summaryOf vs (i2, m2), summaryOf vs (i1, m1)] := by
  refine ⟨List.sorted_insertionSort descLA _, List.perm_insertionSort descLA _, ?_⟩
  have hA : ¬ descLA (summaryOf vs (i2, m2)) (summaryOf vs (i3, m3)) := by
    simp only [descLA, summaryOf, Nat.not_le]
    exact h23
  have hB : ¬ descLA (summaryOf vs (i1, m1)) (summaryOf vs (i3, m3)) := by
    simp only [descLA, summaryOf, Nat.not_le]
    exact Nat.lt_trans h12 h23
  have hC : ¬ descLA (summaryOf vs (i1, m1)) (summaryOf vs (i2, m2)) := by
    simp only [descLA, summaryOf, Nat.not_le]
    exact h12
  simp [list_resources, matchesType, List.insertionSort, List.orderedInsert, hA, hB, hC]

/-- Witness for C6 at a concrete input: three resources last accessed
at times 0 < 1 < 2 are listed most recent first. -/
theorem c6_list_order_witness :
    list_resources ⟨[("a", ⟨"t", 1, 1, 0, false, 1, 0, 0, 0⟩),
                     ("b", ⟨"t", 1, 1, 0, false, 1, 0, 1, 0⟩),
                     ("c", ⟨"t", 1, 1, 0, false, 1, 0, 2, 0⟩)], [], []⟩ none
      = [summaryOf [] ("c", ⟨"t", 1, 1, 0, false, 1, 0, 2, 0⟩),
         summaryOf [] ("b", ⟨"t", 1, 1, 0, false, 1, 0, 1, 0⟩),
         summaryOf [] ("a", ⟨"t", 1, 1, 0, false, 1, 0, 0, 0⟩)] :=
  (c6_list_order ⟨[], [], []⟩ none "a" "b" "c"
      ⟨"t", 1, 1, 0, false, 1, 0, 0, 0⟩ ⟨"t", 1, 1, 0, false, 1, 0, 1, 0⟩
      ⟨"t", 1, 1, 0, false, 1, 0, 2, 0⟩ [] [] (by decide) (by decide)).2.2

/-- Claim C3, amended: if the on-disk payload bytes for a live resource
have been mutated so that the recovered bytes no longer hash to the
record's stored hash, `get_resource` fails without returning the
corrupted bytes and without touching any state — but the failure it
signals is `None`, the very same not-found signal an unknown id
produces (the HTTP layer in `app.py` turns both into
404 "Resource not found"); the source has no distinct `IntegrityError`
channel. -/
theorem c3_corruption_fails_closed (s : ManagerState) (rid : String) (now : Nat)
    (meta : ResourceMeta) (stored corrupt : List Nat)
    (hm : dictLookup rid s.resources = some meta)
    (hf : dictLookup rid s.files = some stored)
    (hrec : (if meta.compressed then decompress_data stored else some stored)
              = some corrupt)
    (hbad : calculate_hash corrupt ≠ meta.hash) :
    get_resource s rid now = (none, s) := by
  simp only [get_resource, hm, hf, hrec]
  rw [if_pos hbad]

/-- Witness for the amended C3 at a concrete input: the record for
`"a"` stores the hash of `[1, 2, 3]` but the uncompressed payload file
has been mutated to `[9]`; the get fails and changes nothing. -/
theorem c3_corruption_fails_closed_witness :
    get_resource ⟨[("a", ⟨"t", 3, 3, calculate_hash [1, 2, 3], false, 1, 0, 0, 0⟩)],
        [("a", 1)], [("a", [9])]⟩ "a" 5
      = (none, ⟨[("a", ⟨"t", 3, 3, calculate_hash [1, 2, 3], false, 1, 0, 0, 0⟩)],
          [("a", 1)], [("a", [9])]⟩) :=
  c3_corruption_fails_closed
    ⟨[("a", ⟨"t", 3, 3, calculate_hash [1, 2, 3], false, 1, 0, 0, 0⟩)],
        [("a", 1)], [("a", [9])]⟩ "a" 5
    ⟨"t", 3, 3, calculate_hash [1, 2, 3], false, 1, 0, 0, 0⟩ [9] [9]
    (by decide) (by decide) (by decide) (by decide)

/-- Claim C3 as stated is refuted at a concrete input: with the payload
file of `"a"` corrupted (record hash is of `[1, 2, 3]`, file holds
`[9]`), `get_resource` yields `none` — byte-for-byte the same signal it
yields for an id that does not exist at all, so it does not signal an
`IntegrityError` distinct from not-found (spec §7 lists `IntegrityError`
and `NotFound` as different reported error kinds). -/
theorem c3_counterexample :
    (get_resource ⟨[("a", ⟨"t", 3, 3, calculate_hash [1, 2, 3], false, 1, 0, 0, 0⟩)],
        [("a", 1)], [("a", [9])]⟩ "a" 5).1 = none ∧
    (get_resource ⟨[], [], []⟩ "a" 5).1 = none := by
  decide
